import Mathlib

/-!
Shallow embedding of the order-workflow orchestration core of the
`trading_with_shoonya` repository
(`transactional/shoonya_transaction.py`, `transactional/transaction_manager_postgres.py`,
`transactional/order_manager.py`, `event_engine.py`, `utils.py`, `const.py`),
together with theorems settling the spec claims.

Conventions of the embedding:
* the `transactions` table is a `List TxnRow` in insertion order;
* Python `None`-or-`str` values are `Option String`; Python truthiness of such a
  value is `pyTruthy` (`None` and `""` are falsy);
* in-memory sets (`order_queue`, the reaction registry keys) are `Finset String`;
* prices are `ℚ`, quantities `ℤ`;
* functions that issue gateway calls return the calls they made alongside the
  new state, and fallible Python code returns `Except String`.
-/

namespace Shoonya

/-- `OrderStatus` enum from `const.py`. -/
inductive OrderStatus where
  | OPEN
  | COMPLETE
  | CANCELED
  | REJECTED
  | TRIGGER_PENDING
  | PENDING
  | INVALID_STATUS_TYPE
  deriving DecidableEq, Repr

/-- One row of the `transactions` table
(`transaction_manager_postgres.py` `_create_tables`): primary key `norenordno`. -/
structure TxnRow where
  norenordno : String
  remarks : String
  avgprice : ℚ
  qty : ℤ
  buysell : String
  tradingsymbol : String
  status : OrderStatus
  instanceId : String
  deriving DecidableEq, Repr

/-- Python truthiness of an optional string: `None` and `""` are falsy. -/
def pyTruthy : Option String → Bool
  | none => false
  | some s => s != ""

/-- `utils.get_remarks`: `f"{instance_id}|{msg}"`. -/
def get_remarks (instance_id msg : String) : String :=
  instance_id ++ "|" ++ msg

/-- `TransactionManager.get_for_remarks`: select `(norenordno, status)` for
`remarks` and this instance; when `expected` is given, a found row whose status
differs yields `(None, None)`. -/
def get_for_remarks (ledger : List TxnRow) (inst remarks : String)
    (expected : Option OrderStatus) : Option String × Option OrderStatus :=
  match ledger.find? (fun r => r.remarks == remarks && r.instanceId == inst) with
  | none => (none, none)
  | some r =>
    match expected with
    | none => (some r.norenordno, some r.status)
    | some e => if r.status = e then (some r.norenordno, some r.status) else (none, none)

/-- `TransactionManager.get_orders`: all rows for this instance. -/
def get_orders (ledger : List TxnRow) (inst : String) : List TxnRow :=
  ledger.filter (fun r => r.instanceId == inst)

/-- The seven static workflow tags added to `order_queue` per leg in
`ShoonyaTransaction.__init__`. -/
def legTags (m : String) : List String :=
  [m, m ++ "_stop_loss", m ++ "_subscribe", m ++ "_book_profit",
   m ++ "_stop_loss_subscribe", m ++ "_cancel", m ++ "_unsubscribe"]

/-- `ShoonyaTransaction.place_order`.  Returns the new `order_queue` and whether
`api.place_order` was called.  `remarks` is `order_data["remarks"]`. -/
def place_order (ledger : List TxnRow) (inst : String) (queue : Finset String)
    (remarks : String) (parent_remarks : Option String) (parent_status : OrderStatus)
    (exit_order : Option String) : Finset String × Bool :=
  if remarks ∉ queue then (queue, false)
  else
    let parent_present : Bool :=
      match parent_remarks with
      | none => true
      | some p =>
        (p == "") ||
          (decide (p ∉ queue) &&
            pyTruthy (get_for_remarks ledger inst p (some parent_status)).1)
    let result := (get_for_remarks ledger inst remarks none).1
    let exit_in_queue : Bool :=
      match exit_order with
      | none => false
      | some e => decide (e ∈ queue)
    if (!(pyTruthy result) && parent_present) || exit_in_queue then
      let q1 := queue.erase remarks
      let q2 :=
        match exit_order with
        | none => q1
        | some e => if e ∈ q1 then q1.erase e else q1
      (q2, true)
    else (queue, false)

/-- `ShoonyaTransaction.subscribe`.  Returns the new `order_queue` and whether
`transaction_manager.subscribe_symbols` (a gateway subscribe) was called. -/
def subscribe (ledger : List TxnRow) (inst : String) (queue : Finset String)
    (remarks parent_remarks : String) (parent_status : OrderStatus) :
    Finset String × Bool :=
  if remarks ∉ queue ∨ parent_remarks ∈ queue then (queue, false)
  else if pyTruthy (get_for_remarks ledger inst parent_remarks (some parent_status)).1 then
    (queue.erase remarks, true)
  else (queue, false)

/-- `ShoonyaTransaction.unsubscribe`. -/
def unsubscribe (ledger : List TxnRow) (inst : String) (queue : Finset String)
    (remarks parent_remarks : String) : Finset String × Bool :=
  if remarks ∉ queue then (queue, false)
  else
    let nbp := (get_for_remarks ledger inst (parent_remarks ++ "_book_profit")
      (some OrderStatus.COMPLETE)).1
    let nca := (get_for_remarks ledger inst parent_remarks (some OrderStatus.CANCELED)).1
    if pyTruthy nbp || pyTruthy nca then (queue.erase remarks, true) else (queue, false)

/-- `ShoonyaTransaction.cancel_on_book_profit`.  Bool result: whether
`api.cancel_order` was called. -/
def cancel_on_book_profit (ledger : List TxnRow) (inst : String) (queue : Finset String)
    (remarks parent_remarks : String) (parent_status : OrderStatus)
    (cancel_remarks : String) : Finset String × Bool :=
  if remarks ∉ queue ∨ parent_remarks ∈ queue then (queue, false)
  else if pyTruthy (get_for_remarks ledger inst parent_remarks (some parent_status)).1 then
    let res := get_for_remarks ledger inst cancel_remarks none
    if pyTruthy res.1 then
      if res.2 = some OrderStatus.TRIGGER_PENDING then (queue.erase remarks, true)
      else if res.2 = some OrderStatus.COMPLETE then (queue.erase remarks, false)
      else (queue, false)
    else (queue, false)
  else (queue, false)

/-- A gateway call recorded during `_square_off`. -/
inductive GatewayCall where
  | placeOrder (buy_or_sell : String) (tradingsymbol : String) (quantity : ℤ)
      (remarks : String)
  | cancelOrder (norenordno : String)
  deriving DecidableEq, Repr

/-- The gateway calls `ShoonyaTransaction._square_off` makes for one order row:
cancel Open/TriggerPending/Pending rows, place an opposite-side market order
tagged `<remarks>_square_off` for Complete rows, nothing otherwise. -/
def square_off_row_calls (o : TxnRow) : List GatewayCall :=
  if o.status = OrderStatus.OPEN ∨ o.status = OrderStatus.TRIGGER_PENDING ∨
      o.status = OrderStatus.PENDING then
    [GatewayCall.cancelOrder o.norenordno]
  else if o.status = OrderStatus.COMPLETE then
    [GatewayCall.placeOrder (if o.buysell == "S" then "B" else "S")
      o.tradingsymbol o.qty (o.remarks ++ "_square_off")]
  else []

/-- `ShoonyaTransaction._square_off`: walk `get_orders`, emit the per-row
gateway calls, then `order_queue.clear()`. -/
def square_off (ledger : List TxnRow) (inst : String) (_queue : Finset String) :
    Finset String × List GatewayCall :=
  (∅, (get_orders ledger inst).foldr (fun o acc => square_off_row_calls o ++ acc) [])

/-- `OrderManager.day_over` (inherited by `TransactionManager`): true iff the
IST wall clock has `hour == 15 and minute >= 31`. -/
def day_over (hour minute : ℕ) : Bool :=
  hour == 15 && decide (31 ≤ minute)

/-- `ShoonyaTransaction._both_legs_rejected` (un-throttled body): both legs'
primary tags have a REJECTED row. -/
def both_legs_rejected (ledger : List TxnRow) (inst : String) : Bool :=
  pyTruthy (get_for_remarks ledger inst (get_remarks inst "ce_straddle")
      (some OrderStatus.REJECTED)).1 &&
    pyTruthy (get_for_remarks ledger inst (get_remarks inst "pe_straddle")
      (some OrderStatus.REJECTED)).1

/-- `ShoonyaTransaction.over`: queue empty, or day over, or both legs rejected.
`_both_legs_rejected` is wrapped in `delay_decorator(5)`, which returns `None`
(falsy) when throttled; `throttled` models that. -/
def over (ledger : List TxnRow) (inst : String) (queue : Finset String)
    (hour minute : ℕ) (throttled : Bool) : Bool :=
  decide (queue = ∅) || day_over hour minute ||
    (!throttled && both_legs_rejected ledger inst)

/-- Substring test on character lists (Python `pat in s`). -/
def charsHasPfx : List Char → List Char → Bool
  | _, [] => true
  | [], _ :: _ => false
  | c :: cs, p :: ps => c == p && charsHasPfx cs ps

/-- Substring containment on character lists. -/
def charsContains : List Char → List Char → Bool
  | [], pat => pat.isEmpty
  | c :: cs, pat => charsHasPfx (c :: cs) pat || charsContains cs pat

/-- Python `pat in s` for strings. -/
def containsSubstr (s pat : String) : Bool :=
  charsContains s.data pat.data

/-- `ShoonyaTransaction.re_enqueue_rejected_order` (un-throttled body): add back
to `order_queue` every order whose remarks contain `"_book_profit"` and whose
status is REJECTED. -/
def re_enqueue_rejected_order (ledger : List TxnRow) (inst : String)
    (queue : Finset String) : Finset String :=
  (get_orders ledger inst).foldl
    (fun q o =>
      if containsSubstr o.remarks "_book_profit" && (o.status == OrderStatus.REJECTED) then
        insert o.remarks q
      else q)
    queue

/-! ### The orchestrator loop body (per-leg step sequence of `main`) -/

/-- A step-action gateway call made inside the `while not over()` loop of
`main`, keyed by the step's workflow tag. -/
inductive LoopCall where
  | place (remarks : String)
  | subscribeCall (remarks : String)
  | cancel (remarks : String)
  | unsubscribeCall (remarks : String)
  deriving DecidableEq, Repr

/-- The place/subscribe step tags of one leg, in DAG order
(steps 1–4 of the spec's per-leg DAG as executed by `main`). -/
def placeSubTags (m : String) : List String :=
  [m, m ++ "_subscribe", m ++ "_stop_loss", m ++ "_stop_loss_subscribe"]

/-- The six step-actions `main` runs for one leg with tag prefix `m` each loop
iteration: place straddle, subscribe, place stop-loss, subscribe stop-loss,
cancel-on-book-profit, unsubscribe.  Returns the updated `order_queue` and the
gateway calls issued, tagged by step tag. -/
def legBody (ledger : List TxnRow) (inst m : String) (q : Finset String) :
    Finset String × List LoopCall :=
  let r1 := place_order ledger inst q m none OrderStatus.COMPLETE none
  let c1 := if r1.2 then [LoopCall.place m] else []
  let r2 := subscribe ledger inst r1.1 (m ++ "_subscribe") m OrderStatus.COMPLETE
  let c2 := if r2.2 then [LoopCall.subscribeCall (m ++ "_subscribe")] else []
  let r3 := place_order ledger inst r2.1 (m ++ "_stop_loss") (some m)
    OrderStatus.COMPLETE none
  let c3 := if r3.2 then [LoopCall.place (m ++ "_stop_loss")] else []
  let r4 := subscribe ledger inst r3.1 (m ++ "_stop_loss_subscribe")
    (m ++ "_stop_loss") OrderStatus.COMPLETE
  let c4 := if r4.2 then [LoopCall.subscribeCall (m ++ "_stop_loss_subscribe")] else []
  let r5 := cancel_on_book_profit ledger inst r4.1 (m ++ "_cancel")
    (m ++ "_book_profit") OrderStatus.COMPLETE (m ++ "_stop_loss")
  let c5 := if r5.2 then [LoopCall.cancel (m ++ "_cancel")] else []
  let r6 := unsubscribe ledger inst r5.1 (m ++ "_unsubscribe") m
  let c6 := if r6.2 then [LoopCall.unsubscribeCall (m ++ "_unsubscribe")] else []
  (r6.1, c1 ++ c2 ++ c3 ++ c4 ++ c5 ++ c6)

/-- One iteration of the orchestrator loop: the ce leg's steps then the pe
leg's steps, on the shared `order_queue`. -/
def loopBody (ledger : List TxnRow) (inst : String) (q : Finset String) :
    Finset String × List LoopCall :=
  let a := legBody ledger inst (get_remarks inst "ce_straddle") q
  let b := legBody ledger inst (get_remarks inst "pe_straddle") a.1
  (b.1, a.2 ++ b.2)

/-- `n` iterations of the orchestrator loop against a fixed ledger, collecting
every gateway call issued. -/
def loopN (ledger : List TxnRow) (inst : String) :
    ℕ → Finset String → Finset String × List LoopCall
  | 0, q => (q, [])
  | n + 1, q =>
    let a := loopBody ledger inst q
    let b := loopN ledger inst n a.1
    (b.1, a.2 ++ b.2)

/-! ### PnL (`TransactionManager.get_pnl`) and risk check -/

/-- One row of the three-way join in `get_pnl`
(`transactions` × `symbols` × `liveltp`). -/
structure PnlRow where
  avgprice : ℚ
  qty : ℤ
  buysell : String
  tradingsymbol : String
  ltp : ℚ
  deriving DecidableEq, Repr

/-- Round-half-to-even to an integer (Python `round` tie behaviour),
idealised over exact rationals. -/
def roundHalfEven (q : ℚ) : ℤ :=
  let f := Rat.floor q
  let r := q - f
  if r < 1/2 then f
  else if 1/2 < r then f + 1
  else if f % 2 = 0 then f else f + 1

/-- Python `round(x, 2)` idealised over exact rationals. -/
def pyRound2 (q : ℚ) : ℚ :=
  (roundHalfEven (q * 100) : ℚ) / 100

/-- The per-symbol dict entry `get_pnl` stores in `msg`. -/
structure PnlEntry where
  buysell : String
  qty : ℤ
  avgprice : ℚ
  ltp : ℚ
  pnl : ℚ
  deriving DecidableEq, Repr

/-- A value of the `msg` dict in `get_pnl`: per-symbol entries plus the final
scalar `"Total"` key. -/
inductive PnlMsgVal where
  | entry (e : PnlEntry)
  | num (q : ℚ)
  deriving DecidableEq, Repr

/-- Python dict assignment `m[k] = v` on an insertion-ordered association
list: replace in place if the key exists, else append. -/
def dictUpsert (m : List (String × PnlMsgVal)) (k : String) (v : PnlMsgVal) :
    List (String × PnlMsgVal) :=
  if m.any (fun p => p.1 == k) then
    m.map (fun p => if p.1 == k then (k, v) else p)
  else m ++ [(k, v)]

/-- One iteration of the row loop in `get_pnl`: skip sentinel rows
(`avgprice == -1 or qty == -1` after rounding), otherwise accumulate the pnl
and write the per-symbol entry. -/
def pnlStep (acc : ℚ × List (String × PnlMsgVal)) (row : PnlRow) :
    ℚ × List (String × PnlMsgVal) :=
  let avgprice := pyRound2 row.avgprice
  let qty := row.qty
  let ltp := pyRound2 row.ltp
  if avgprice = -1 ∨ qty = -1 then acc
  else
    let pnl := if row.buysell == "B" then (ltp - avgprice) * qty
               else (avgprice - ltp) * qty
    (acc.1 + pnl,
      dictUpsert acc.2 row.tradingsymbol
        (PnlMsgVal.entry ⟨row.buysell, qty, avgprice, ltp, pyRound2 pnl⟩))

/-- Insert into a key-sorted association list (for Python `sorted(msg.items())`). -/
def insertByKey (p : String × PnlMsgVal) :
    List (String × PnlMsgVal) → List (String × PnlMsgVal)
  | [] => [p]
  | q :: rest => if p.1 < q.1 then p :: q :: rest else q :: insertByKey p rest

/-- Sort an association list by key (Python `dict(sorted(msg.items()))`). -/
def sortByKey : List (String × PnlMsgVal) → List (String × PnlMsgVal)
  | [] => []
  | p :: rest => insertByKey p (sortByKey rest)

/-- Result of `get_pnl`: on the exception path a bare float sentinel, on the
success path the `(total, msg)` pair. -/
inductive PnlValue where
  | sentinel (x : ℚ)
  | pair (total : ℚ) (msg : List (String × PnlMsgVal))
  deriving DecidableEq, Repr

/-- `TransactionManager.get_pnl`.  `dbOk = false` models the `except` branch
(`return -999.999`); otherwise fold the joined rows, then sort the dict by key
and append the `"Total"` display key when the dict is nonempty. -/
def get_pnl (dbOk : Bool) (rows : List PnlRow) : PnlValue :=
  if !dbOk then PnlValue.sentinel (-(999999 : ℚ)/1000)
  else
    let acc := rows.foldl pnlStep (0, [])
    let msg :=
      if acc.2 = [] then acc.2
      else sortByKey acc.2 ++ [("Total", PnlMsgVal.num (pyRound2 acc.1))]
    PnlValue.pair acc.1 msg

/-- `ShoonyaTransaction.cancel_on_profit` (with `@delay_decorator(delay=10)`):
the Bool result records whether `_square_off` ran.  Unpacking the bare float
sentinel raises `TypeError`; when a bound is crossed, the log call references
the undefined name `traget_loss` and raises `NameError` before `_square_off()`
is reached. -/
def cancel_on_profit (throttled : Bool) (pnl_result : PnlValue)
    (target_profit target_loss : ℚ) : Except String Bool :=
  if throttled then Except.ok false
  else
    match pnl_result with
    | PnlValue.sentinel _ =>
        Except.error "TypeError: cannot unpack non-iterable float object"
    | PnlValue.pair total_pnl _ =>
        if total_pnl > target_profit ∨ total_pnl ≤ target_loss then
          Except.error "NameError: name traget_loss is not defined"
        else Except.ok false

/-! ### Order-update event handling (`TransactionManager` upsert and
`EventEngine` reaction registry) -/

/-- The SQL upsert of `TransactionManager._event_handler_order_update` on the
`transactions` table: `ON CONFLICT (norenordno) DO UPDATE` sets every column,
so a conflicting key replaces the row, a fresh key appends it. -/
def upsert_transaction (tbl : List TxnRow) (row : TxnRow) : List TxnRow :=
  if tbl.any (fun r => r.norenordno == row.norenordno) then
    tbl.map (fun r => if r.norenordno == row.norenordno then row else r)
  else tbl ++ [row]

/-- Number of `transactions` rows holding a given order id. -/
def countRowsFor (tbl : List TxnRow) (id : String) : ℕ :=
  (tbl.filter (fun r => r.norenordno == id)).length

/-- An order-update event as seen by `EventEngine._event_handler_order_update`. -/
structure OrderUpdateEvent where
  status : String
  reporttype : String
  remarks : String
  norenordno : String
  deriving DecidableEq, Repr

/-- `EventEngine._event_handler_order_update`, reduced to its effect on the
reaction registry (`on_complete_methods` keys): a matching
`COMPLETE`/`Fill` delivery invokes the reaction once (Bool result) then removes
it; a matching `CANCELLED`/`Canceled` delivery removes it unfired; anything
else is dropped. -/
def ee_handle_order_update (registry : Finset String) (existing : List String)
    (ev : OrderUpdateEvent) : Finset String × Bool :=
  if (ev.status == "COMPLETE" && ev.reporttype == "Fill") ||
      (ev.status == "CANCELLED" && ev.reporttype == "Canceled") then
    if ev.remarks ∈ registry ∧ ev.norenordno ∈ existing then
      if ev.status == "CANCELLED" then (registry.erase ev.remarks, false)
      else (registry.erase ev.remarks, true)
    else (registry, false)
  else (registry, false)

/-- Proof infrastructure: repeated invocation of `ShoonyaTransaction.place_order`
with a fixed ledger and arguments, counting gateway submissions. -/
def place_order_iter (ledger : List TxnRow) (inst : String) (remarks : String)
    (parent_remarks : Option String) (parent_status : OrderStatus)
    (exit_order : Option String) : ℕ → Finset String → Finset String × ℕ
  | 0, q => (q, 0)
  | n + 1, q =>
    let a := place_order ledger inst q remarks parent_remarks parent_status exit_order
    let b := place_order_iter ledger inst remarks parent_remarks parent_status
      exit_order n a.1
    (b.1, (if a.2 then 1 else 0) + b.2)

/-- Proof infrastructure: the three tags of one leg that stay in the
`order_queue` whenever the leg's primary order already has a Ledger row. -/
def anchorTags (m : String) : List String :=
  [m, m ++ "_stop_loss", m ++ "_book_profit"]

/-- The claimed per-row PnL contribution, written from the words of the spec
(sold leg: `(avgPrice - lastPrice) * qty`; bought leg:
`(lastPrice - avgPrice) * qty`; unfilled sentinel rows contribute nothing), to
be compared with the fold inside `get_pnl`. -/
def spec_row_pnl (r : PnlRow) : ℚ :=
  if r.avgprice = -1 ∨ r.qty = -1 then 0
  else if r.buysell == "B" then (r.ltp - r.avgprice) * r.qty
  else (r.avgprice - r.ltp) * r.qty

/-! ### Helper lemmas about the step actions -/

theorem place_order_not_mem {ledger : List TxnRow} {inst : String} {queue : Finset String}
    {remarks : String} {po : Option String} {ps : OrderStatus} {eo : Option String}
    (h : remarks ∉ queue) :
    place_order ledger inst queue remarks po ps eo = (queue, false) := by
  simp [place_order, h]

theorem place_order_skip_of_row {ledger : List TxnRow} {inst : String}
    {queue : Finset String} {remarks : String} {po : Option String} {ps : OrderStatus}
    (h : pyTruthy (get_for_remarks ledger inst remarks none).1 = true) :
    place_order ledger inst queue remarks po ps none = (queue, false) := by
  simp [place_order, h]

theorem place_order_skip_parent_mem {ledger : List TxnRow} {inst : String}
    {queue : Finset String} {remarks p : String} {ps : OrderStatus}
    (hp : p ≠ "") (hpq : p ∈ queue) :
    place_order ledger inst queue remarks (some p) ps none = (queue, false) := by
  simp [place_order, hp, hpq]

theorem place_order_skip_parent_status {ledger : List TxnRow} {inst : String}
    {queue : Finset String} {remarks p : String} {ps : OrderStatus}
    (hp : p ≠ "")
    (hst : pyTruthy (get_for_remarks ledger inst p (some ps)).1 = false) :
    place_order ledger inst queue remarks (some p) ps none = (queue, false) := by
  simp [place_order, hp, hst]

theorem place_order_spec (ledger : List TxnRow) (inst : String) (queue : Finset String)
    (remarks : String) (po : Option String) (ps : OrderStatus) (eo : Option String) :
    place_order ledger inst queue remarks po ps eo = (queue, false) ∨
    ((place_order ledger inst queue remarks po ps eo).2 = true ∧
      (place_order ledger inst queue remarks po ps eo).1 ⊆ queue.erase remarks) := by
  by_cases h1 : remarks ∉ queue
  · exact Or.inl (place_order_not_mem h1)
  · simp only [place_order, h1, if_false, ite_not]
    split
    · refine Or.inr ⟨rfl, ?_⟩
      cases eo with
      | none => exact Finset.Subset.refl _
      | some e =>
        dsimp only
        split
        · exact Finset.erase_subset _ _
        · exact Finset.Subset.refl _
    · exact Or.inl rfl

theorem place_order_submitted_not_mem {ledger : List TxnRow} {inst : String}
    {queue : Finset String} {remarks : String} {po : Option String} {ps : OrderStatus}
    {eo : Option String}
    (h : (place_order ledger inst queue remarks po ps eo).2 = true) :
    remarks ∉ (place_order ledger inst queue remarks po ps eo).1 := by
  rcases place_order_spec ledger inst queue remarks po ps eo with heq | ⟨_, hsub⟩
  · rw [heq] at h
    cases h
  · intro hm
    exact (Finset.mem_erase.1 (hsub hm)).1 rfl

theorem place_order_not_submitted_eq {ledger : List TxnRow} {inst : String}
    {queue : Finset String} {remarks : String} {po : Option String} {ps : OrderStatus}
    {eo : Option String}
    (h : (place_order ledger inst queue remarks po ps eo).2 = false) :
    (place_order ledger inst queue remarks po ps eo).1 = queue := by
  rcases place_order_spec ledger inst queue remarks po ps eo with heq | ⟨h2, _⟩
  · rw [heq]
  · rw [h] at h2
    cases h2

theorem place_order_preserve {ledger : List TxnRow} {inst : String}
    {queue : Finset String} {remarks : String} {po : Option String} {ps : OrderStatus}
    {t : String} (ht : t ∈ queue) (hne : t ≠ remarks) :
    t ∈ (place_order ledger inst queue remarks po ps none).1 := by
  unfold place_order
  by_cases h1 : remarks ∉ queue
  · simpa [h1] using ht
  · simp only [h1, if_false, ite_not]
    split
    · exact Finset.mem_erase.2 ⟨hne, ht⟩
    · exact ht

theorem subscribe_skip_parent_mem {ledger : List TxnRow} {inst : String}
    {queue : Finset String} {remarks p : String} {ps : OrderStatus} (hpq : p ∈ queue) :
    subscribe ledger inst queue remarks p ps = (queue, false) := by
  simp [subscribe, hpq]

theorem subscribe_preserve {ledger : List TxnRow} {inst : String}
    {queue : Finset String} {remarks p : String} {ps : OrderStatus}
    {t : String} (ht : t ∈ queue) (hne : t ≠ remarks) :
    t ∈ (subscribe ledger inst queue remarks p ps).1 := by
  unfold subscribe
  split
  · exact ht
  · split
    · exact Finset.mem_erase.2 ⟨hne, ht⟩
    · exact ht

theorem cancel_on_book_profit_skip_parent_mem {ledger : List TxnRow} {inst : String}
    {queue : Finset String} {remarks p cr : String} {ps : OrderStatus} (hpq : p ∈ queue) :
    cancel_on_book_profit ledger inst queue remarks p ps cr = (queue, false) := by
  simp [cancel_on_book_profit, hpq]

theorem cancel_on_book_profit_preserve {ledger : List TxnRow} {inst : String}
    {queue : Finset String} {remarks p cr : String} {ps : OrderStatus}
    {t : String} (ht : t ∈ queue) (hne : t ≠ remarks) :
    t ∈ (cancel_on_book_profit ledger inst queue remarks p ps cr).1 := by
  simp only [cancel_on_book_profit]
  split
  · exact ht
  · split
    · split
      · split
        · exact Finset.mem_erase.2 ⟨hne, ht⟩
        · split
          · exact Finset.mem_erase.2 ⟨hne, ht⟩
          · exact ht
      · exact ht
    · exact ht

theorem unsubscribe_cases (ledger : List TxnRow) (inst : String)
    (queue : Finset String) (remarks p : String) :
    unsubscribe ledger inst queue remarks p = (queue, false) ∨
      unsubscribe ledger inst queue remarks p = (queue.erase remarks, true) := by
  simp only [unsubscribe]
  split
  · exact Or.inl rfl
  · split
    · exact Or.inr rfl
    · exact Or.inl rfl

theorem unsubscribe_preserve {ledger : List TxnRow} {inst : String}
    {queue : Finset String} {remarks p : String}
    {t : String} (ht : t ∈ queue) (hne : t ≠ remarks) :
    t ∈ (unsubscribe ledger inst queue remarks p).1 := by
  rcases unsubscribe_cases ledger inst queue remarks p with h | h <;> rw [h]
  · exact ht
  · exact Finset.mem_erase.2 ⟨hne, ht⟩

attribute [irreducible] place_order subscribe cancel_on_book_profit unsubscribe
  legBody loopBody

theorem mem_anchor0 (m : String) : m ∈ anchorTags m :=
  List.mem_cons_self _ _

theorem mem_anchor1 (m : String) : m ++ "_stop_loss" ∈ anchorTags m :=
  List.mem_cons_of_mem _ (List.mem_cons_self _ _)

theorem mem_anchor2 (m : String) : m ++ "_book_profit" ∈ anchorTags m :=
  List.mem_cons_of_mem _ (List.mem_cons_of_mem _ (List.mem_cons_self _ _))

theorem legBody_blocked (ledger : List TxnRow) (inst m : String) (q : Finset String)
    (hm : m ≠ "")
    (hrow : pyTruthy (get_for_remarks ledger inst m none).1 = true)
    (hq : m ∈ q) (hqs : m ++ "_stop_loss" ∈ q) (hqb : m ++ "_book_profit" ∈ q) :
    ((legBody ledger inst m q).1 = q ∨
      (legBody ledger inst m q).1 = q.erase (m ++ "_unsubscribe")) ∧
    ∀ c ∈ (legBody ledger inst m q).2,
      c = LoopCall.unsubscribeCall (m ++ "_unsubscribe") := by
  simp only [legBody, place_order_skip_of_row hrow, subscribe_skip_parent_mem hq,
    place_order_skip_parent_mem hm hq, subscribe_skip_parent_mem hqs,
    cancel_on_book_profit_skip_parent_mem hqb]
  rcases unsubscribe_cases ledger inst q (m ++ "_unsubscribe") m with h6 | h6 <;>
    rw [h6] <;> simp

set_option linter.constructorNameAsVariable false in
set_option maxHeartbeats 1000000 in
theorem loopN_calls (ledger : List TxnRow) (inst : String)
    (h1 : get_remarks inst "ce_straddle" ≠ "")
    (h2 : get_remarks inst "pe_straddle" ≠ "")
    (hr1 : pyTruthy (get_for_remarks ledger inst (get_remarks inst "ce_straddle") none).1
      = true)
    (hr2 : pyTruthy (get_for_remarks ledger inst (get_remarks inst "pe_straddle") none).1
      = true)
    (hsep : ∀ a ∈ anchorTags (get_remarks inst "ce_straddle") ++
        anchorTags (get_remarks inst "pe_straddle"),
      a ≠ get_remarks inst "ce_straddle" ++ "_unsubscribe" ∧
      a ≠ get_remarks inst "pe_straddle" ++ "_unsubscribe") :
    ∀ n q,
      (∀ a ∈ anchorTags (get_remarks inst "ce_straddle") ++
          anchorTags (get_remarks inst "pe_straddle"), a ∈ q) →
      ∀ c ∈ (loopN ledger inst n q).2,
        c = LoopCall.unsubscribeCall (get_remarks inst "ce_straddle" ++ "_unsubscribe") ∨
        c = LoopCall.unsubscribeCall (get_remarks inst "pe_straddle" ++ "_unsubscribe") := by
  intro n
  induction n with
  | zero =>
    intro q hq c hc
    simp [loopN] at hc
  | succ n ih =>
    intro q hq c hc
    have hqce : get_remarks inst "ce_straddle" ∈ q :=
      hq _ (List.mem_append_left _ (mem_anchor0 _))
    have hqces : get_remarks inst "ce_straddle" ++ "_stop_loss" ∈ q :=
      hq _ (List.mem_append_left _ (mem_anchor1 _))
    have hqceb : get_remarks inst "ce_straddle" ++ "_book_profit" ∈ q :=
      hq _ (List.mem_append_left _ (mem_anchor2 _))
    have hA := legBody_blocked ledger inst (get_remarks inst "ce_straddle") q
      h1 hr1 hqce hqces hqceb
    -- every anchor survives the ce leg because it is not the ce unsubscribe tag
    have hqa : ∀ a ∈ anchorTags (get_remarks inst "ce_straddle") ++
        anchorTags (get_remarks inst "pe_straddle"),
        a ∈ (legBody ledger inst (get_remarks inst "ce_straddle") q).1 := by
      intro a ha
      rcases hA.1 with he | he <;> rw [he]
      · exact hq a ha
      · exact Finset.mem_erase.2 ⟨(hsep a ha).1, hq a ha⟩
    have hqpe : get_remarks inst "pe_straddle" ∈
        (legBody ledger inst (get_remarks inst "ce_straddle") q).1 :=
      hqa _ (List.mem_append_right _ (mem_anchor0 _))
    have hqpes : get_remarks inst "pe_straddle" ++ "_stop_loss" ∈
        (legBody ledger inst (get_remarks inst "ce_straddle") q).1 :=
      hqa _ (List.mem_append_right _ (mem_anchor1 _))
    have hqpeb : get_remarks inst "pe_straddle" ++ "_book_profit" ∈
        (legBody ledger inst (get_remarks inst "ce_straddle") q).1 :=
      hqa _ (List.mem_append_right _ (mem_anchor2 _))
    have hB := legBody_blocked ledger inst (get_remarks inst "pe_straddle")
      (legBody ledger inst (get_remarks inst "ce_straddle") q).1 h2 hr2 hqpe hqpes hqpeb
    have hqb2 : ∀ a ∈ anchorTags (get_remarks inst "ce_straddle") ++
        anchorTags (get_remarks inst "pe_straddle"),
        a ∈ (loopBody ledger inst q).1 := by
      intro a ha
      simp only [loopBody]
      rcases hB.1 with he | he <;> rw [he]
      · exact hqa a ha
      · exact Finset.mem_erase.2 ⟨(hsep a ha).2, hqa a ha⟩
    simp only [loopN] at hc
    rcases List.mem_append.1 hc with hc1 | hc2
    · simp only [loopBody] at hc1
      rcases List.mem_append.1 hc1 with hca | hcb
      · exact Or.inl (hA.2 c hca)
      · exact Or.inr (hB.2 c hcb)
    · exact ih (loopBody ledger inst q).1 hqb2 c hc2

/-! ### Claim C2 -/

set_option linter.constructorNameAsVariable false in
/-- C2: Resumability.  Given a Ledger whose transactions table already holds a
row (returned by `get_for_remarks`) for the tags of the per-leg place/subscribe
steps 1..k, and a freshly rebuilt `order_queue` holding all 14 static tags,
re-running the orchestrator loop any number of times issues no gateway place or
subscribe call for any of those steps (the only calls that can still fire are
unsubscriptions). -/
theorem C2_resumability (ledger : List TxnRow) (inst : String) (k n : ℕ)
    (h1 : get_remarks inst "ce_straddle" ≠ "")
    (h2 : get_remarks inst "pe_straddle" ≠ "")
    (hsep : ∀ a ∈ anchorTags (get_remarks inst "ce_straddle") ++
        anchorTags (get_remarks inst "pe_straddle"),
      a ≠ get_remarks inst "ce_straddle" ++ "_unsubscribe" ∧
      a ≠ get_remarks inst "pe_straddle" ++ "_unsubscribe")
    (hrows1 : ∀ t ∈ (placeSubTags (get_remarks inst "ce_straddle")).take k,
      pyTruthy (get_for_remarks ledger inst t none).1 = true)
    (hrows2 : ∀ t ∈ (placeSubTags (get_remarks inst "pe_straddle")).take k,
      pyTruthy (get_for_remarks ledger inst t none).1 = true) :
    ∀ t ∈ (placeSubTags (get_remarks inst "ce_straddle")).take k ++
        (placeSubTags (get_remarks inst "pe_straddle")).take k,
      LoopCall.place t ∉ (loopN ledger inst n
        ((legTags (get_remarks inst "ce_straddle") ++
          legTags (get_remarks inst "pe_straddle")).toFinset)).2 ∧
      LoopCall.subscribeCall t ∉ (loopN ledger inst n
        ((legTags (get_remarks inst "ce_straddle") ++
          legTags (get_remarks inst "pe_straddle")).toFinset)).2 := by
  intro t ht
  cases k with
  | zero =>
    simp [List.take] at ht
  | succ k0 =>
    have hr1 : pyTruthy (get_for_remarks ledger inst
        (get_remarks inst "ce_straddle") none).1 = true :=
      hrows1 _ (by rw [placeSubTags, List.take_succ_cons]; exact List.mem_cons_self _ _)
    have hr2 : pyTruthy (get_for_remarks ledger inst
        (get_remarks inst "pe_straddle") none).1 = true :=
      hrows2 _ (by rw [placeSubTags, List.take_succ_cons]; exact List.mem_cons_self _ _)
    have hq0 : ∀ a ∈ anchorTags (get_remarks inst "ce_straddle") ++
        anchorTags (get_remarks inst "pe_straddle"),
        a ∈ (legTags (get_remarks inst "ce_straddle") ++
          legTags (get_remarks inst "pe_straddle")).toFinset := by
      intro a ha
      rw [List.mem_toFinset]
      rcases List.mem_append.1 ha with hl | hl
      · refine List.mem_append_left _ ?_
        simp only [anchorTags, List.mem_cons, List.not_mem_nil, or_false] at hl
        rcases hl with rfl | rfl | rfl
        · exact List.mem_cons_self _ _
        · exact List.mem_cons_of_mem _ (List.mem_cons_self _ _)
        · exact List.mem_cons_of_mem _ (List.mem_cons_of_mem _
            (List.mem_cons_of_mem _ (List.mem_cons_self _ _)))
      · refine List.mem_append_right _ ?_
        simp only [anchorTags, List.mem_cons, List.not_mem_nil, or_false] at hl
        rcases hl with rfl | rfl | rfl
        · exact List.mem_cons_self _ _
        · exact List.mem_cons_of_mem _ (List.mem_cons_self _ _)
        · exact List.mem_cons_of_mem _ (List.mem_cons_of_mem _
            (List.mem_cons_of_mem _ (List.mem_cons_self _ _)))
    have hcalls := loopN_calls ledger inst h1 h2 hr1 hr2 hsep n _ hq0
    constructor
    · intro hmem
      rcases hcalls _ hmem with hcc | hcc <;> cases hcc
    · intro hmem
      rcases hcalls _ hmem with hcc | hcc <;> cases hcc

set_option linter.constructorNameAsVariable false in
/-- Witness for C2: instance `i1`, a Ledger holding rows for all four
place/subscribe steps of both legs (k = 4), the full static queue and two loop
iterations; no gateway place call is issued for the first leg's primary tag. -/
theorem C2_resumability_witness :
    LoopCall.place "i1|ce_straddle" ∉ (loopN
      [⟨"o1", "i1|ce_straddle", 1, 50, "S", "A", OrderStatus.COMPLETE, "i1"⟩,
       ⟨"o2", "i1|ce_straddle_subscribe", 1, 50, "S", "A", OrderStatus.COMPLETE, "i1"⟩,
       ⟨"o3", "i1|ce_straddle_stop_loss", 1, 50, "B", "B", OrderStatus.COMPLETE, "i1"⟩,
       ⟨"o4", "i1|ce_straddle_stop_loss_subscribe", 1, 50, "B", "B",
         OrderStatus.COMPLETE, "i1"⟩,
       ⟨"o5", "i1|pe_straddle", 1, 50, "S", "C", OrderStatus.COMPLETE, "i1"⟩,
       ⟨"o6", "i1|pe_straddle_subscribe", 1, 50, "S", "C", OrderStatus.COMPLETE, "i1"⟩,
       ⟨"o7", "i1|pe_straddle_stop_loss", 1, 50, "B", "D", OrderStatus.COMPLETE, "i1"⟩,
       ⟨"o8", "i1|pe_straddle_stop_loss_subscribe", 1, 50, "B", "D",
         OrderStatus.COMPLETE, "i1"⟩]
      "i1" 2
      ((legTags (get_remarks "i1" "ce_straddle") ++
        legTags (get_remarks "i1" "pe_straddle")).toFinset)).2 :=
  ((C2_resumability
    [⟨"o1", "i1|ce_straddle", 1, 50, "S", "A", OrderStatus.COMPLETE, "i1"⟩,
     ⟨"o2", "i1|ce_straddle_subscribe", 1, 50, "S", "A", OrderStatus.COMPLETE, "i1"⟩,
     ⟨"o3", "i1|ce_straddle_stop_loss", 1, 50, "B", "B", OrderStatus.COMPLETE, "i1"⟩,
     ⟨"o4", "i1|ce_straddle_stop_loss_subscribe", 1, 50, "B", "B",
       OrderStatus.COMPLETE, "i1"⟩,
     ⟨"o5", "i1|pe_straddle", 1, 50, "S", "C", OrderStatus.COMPLETE, "i1"⟩,
     ⟨"o6", "i1|pe_straddle_subscribe", 1, 50, "S", "C", OrderStatus.COMPLETE, "i1"⟩,
     ⟨"o7", "i1|pe_straddle_stop_loss", 1, 50, "B", "D", OrderStatus.COMPLETE, "i1"⟩,
     ⟨"o8", "i1|pe_straddle_stop_loss_subscribe", 1, 50, "B", "D",
       OrderStatus.COMPLETE, "i1"⟩]
    "i1" 4 2 (by decide) (by decide) (by decide) (by decide) (by decide))
    "i1|ce_straddle" (by decide)).1

/-! ### Claim C1 -/

theorem place_order_iter_not_mem {ledger : List TxnRow} {inst : String}
    {remarks : String} {po : Option String} {ps : OrderStatus} {eo : Option String}
    {q : Finset String} (h : remarks ∉ q) :
    ∀ n, place_order_iter ledger inst remarks po ps eo n q = (q, 0) := by
  intro n
  induction n with
  | zero => rfl
  | succ n ih =>
    simp only [place_order_iter, place_order_not_mem h, ih]
    simp

theorem place_order_iter_le_one (ledger : List TxnRow) (inst : String)
    (remarks : String) (po : Option String) (ps : OrderStatus) (eo : Option String) :
    ∀ n q, (place_order_iter ledger inst remarks po ps eo n q).2 ≤ 1 := by
  intro n
  induction n with
  | zero => intro q; simp [place_order_iter]
  | succ n ih =>
    intro q
    simp only [place_order_iter]
    by_cases hb : (place_order ledger inst q remarks po ps eo).2 = true
    · have hnm := place_order_submitted_not_mem hb
      simp [hb, place_order_iter_not_mem hnm n]
    · have hb2 : (place_order ledger inst q remarks po ps eo).2 = false :=
        Bool.not_eq_true _ ▸ (by simpa using hb)
      have he := place_order_not_submitted_eq hb2
      simp [hb2, he]
      exact ih q

set_option linter.constructorNameAsVariable false in
/-- C1: Idempotency of a workflow step's place-action.  With a fixed Ledger,
(1) any number of repeated `place_order` calls submit at most one gateway
order; (2) a successful submission removes the tag from `order_queue`;
(3) a call whose tag is no longer in `order_queue` submits nothing and leaves
the state unchanged; (4) a call for which the Ledger already holds a row for
the tag submits nothing (workflow step calls pass no `exit_order`); (5) a call
whose parent tag does not satisfy the required status submits nothing. -/
theorem C1_place_order_idempotent (ledger : List TxnRow) (inst : String)
    (q : Finset String) (remarks : String) (po : Option String) (ps : OrderStatus)
    (eo : Option String) :
    (∀ n, (place_order_iter ledger inst remarks po ps eo n q).2 ≤ 1) ∧
    ((place_order ledger inst q remarks po ps eo).2 = true →
      remarks ∉ (place_order ledger inst q remarks po ps eo).1) ∧
    (remarks ∉ q → place_order ledger inst q remarks po ps eo = (q, false)) ∧
    (pyTruthy (get_for_remarks ledger inst remarks none).1 = true →
      place_order ledger inst q remarks po ps none = (q, false)) ∧
    (∀ p, p ≠ "" → pyTruthy (get_for_remarks ledger inst p (some ps)).1 = false →
      place_order ledger inst q remarks (some p) ps none = (q, false)) :=
  ⟨fun n => place_order_iter_le_one ledger inst remarks po ps eo n q,
   place_order_submitted_not_mem,
   place_order_not_mem,
   place_order_skip_of_row,
   fun _ hp hst => place_order_skip_parent_status hp hst⟩

set_option linter.constructorNameAsVariable false in
/-- Witness for C1 at a concrete Ledger, queue and tag. -/
theorem C1_place_order_idempotent_witness :
    (place_order_iter [⟨"o1", "i|t1", 1, 1, "S", "A", OrderStatus.COMPLETE, "i"⟩]
      "i" "i|t1" none OrderStatus.COMPLETE none 3 ({"i|t1", "i|t2"} : Finset String)).2
      ≤ 1 ∧
    place_order [⟨"o1", "i|t1", 1, 1, "S", "A", OrderStatus.COMPLETE, "i"⟩]
      "i" ({"i|t1", "i|t2"} : Finset String) "i|t1" none OrderStatus.COMPLETE none =
      (({"i|t1", "i|t2"} : Finset String), false) ∧
    place_order [⟨"o1", "i|t1", 1, 1, "S", "A", OrderStatus.COMPLETE, "i"⟩]
      "i" ({"i|t1", "i|t2"} : Finset String) "i|t2" (some "i|t9") OrderStatus.COMPLETE
      none = (({"i|t1", "i|t2"} : Finset String), false) :=
  ⟨(C1_place_order_idempotent [⟨"o1", "i|t1", 1, 1, "S", "A", OrderStatus.COMPLETE, "i"⟩]
      "i" {"i|t1", "i|t2"} "i|t1" none OrderStatus.COMPLETE none).1 3,
   (C1_place_order_idempotent [⟨"o1", "i|t1", 1, 1, "S", "A", OrderStatus.COMPLETE, "i"⟩]
      "i" {"i|t1", "i|t2"} "i|t1" none OrderStatus.COMPLETE none).2.2.2.1 (by decide),
   (C1_place_order_idempotent [⟨"o1", "i|t1", 1, 1, "S", "A", OrderStatus.COMPLETE, "i"⟩]
      "i" {"i|t1", "i|t2"} "i|t2" none OrderStatus.COMPLETE none).2.2.2.2
      "i|t9" (by decide) (by decide)⟩

/-! ### Claim C3 -/

theorem pnlStep_sentinel {acc : ℚ × List (String × PnlMsgVal)} {r : PnlRow}
    (hs : pyRound2 r.avgprice = -1 ∨ r.qty = -1) : pnlStep acc r = acc := by
  simp only [pnlStep]
  rw [if_pos hs]

theorem pnlStep_fst {acc : ℚ × List (String × PnlMsgVal)} {r : PnlRow}
    (hs : ¬(pyRound2 r.avgprice = -1 ∨ r.qty = -1)) :
    (pnlStep acc r).1 = acc.1 +
      (if r.buysell == "B" then (pyRound2 r.ltp - pyRound2 r.avgprice) * r.qty
       else (pyRound2 r.avgprice - pyRound2 r.ltp) * r.qty) := by
  simp only [pnlStep]
  rw [if_neg hs]

theorem pnl_foldl_total (rows : List PnlRow)
    (h2 : ∀ r ∈ rows, pyRound2 r.avgprice = r.avgprice ∧ pyRound2 r.ltp = r.ltp) :
    ∀ acc : ℚ × List (String × PnlMsgVal),
      (rows.foldl pnlStep acc).1 = acc.1 + (rows.map spec_row_pnl).sum := by
  induction rows with
  | nil => intro acc; simp
  | cons r rest ih =>
    intro acc
    obtain ⟨ha, hl⟩ := h2 r (List.mem_cons_self _ _)
    have ih2 := ih (fun x hx => h2 x (List.mem_cons_of_mem _ hx))
    simp only [List.foldl_cons, List.map_cons, List.sum_cons]
    rw [ih2 (pnlStep acc r)]
    by_cases hs : r.avgprice = -1 ∨ r.qty = -1
    · have hs2 : pyRound2 r.avgprice = -1 ∨ r.qty = -1 := by rw [ha]; exact hs
      rw [pnlStep_sentinel hs2, spec_row_pnl, if_pos hs]
      ring
    · have hs2 : ¬(pyRound2 r.avgprice = -1 ∨ r.qty = -1) := by rw [ha]; exact hs
      rw [pnlStep_fst hs2, ha, hl, spec_row_pnl, if_neg hs]
      ring

set_option linter.constructorNameAsVariable false in
/-- C3: PnL correctness.  For two-decimal row values (so that Python
`round(x, 2)` fixes them): (1) the total returned by `get_pnl` is the sum over
all joined rows of the claimed per-row contribution; (2) a non-sentinel row
contributes `(ltp - avgprice) * qty` when bought and `(avgprice - ltp) * qty`
when sold; (3) a sentinel row (`avgprice = -1` or `qty = -1`) contributes
nothing to the total or to the per-symbol breakdown. -/
theorem C3_get_pnl_correct (rows : List PnlRow)
    (h2 : ∀ r ∈ rows, pyRound2 r.avgprice = r.avgprice ∧ pyRound2 r.ltp = r.ltp) :
    (∀ t msg, get_pnl true rows = PnlValue.pair t msg →
      t = (rows.map spec_row_pnl).sum) ∧
    (∀ r ∈ rows, ¬(r.avgprice = -1 ∨ r.qty = -1) →
      spec_row_pnl r = if r.buysell == "B" then (r.ltp - r.avgprice) * r.qty
        else (r.avgprice - r.ltp) * r.qty) ∧
    (∀ (acc : ℚ × List (String × PnlMsgVal)) (r : PnlRow), r ∈ rows →
      (r.avgprice = -1 ∨ r.qty = -1) → pnlStep acc r = acc) := by
  refine ⟨?_, ?_, ?_⟩
  · intro t msg h
    simp only [get_pnl, Bool.not_true, if_neg] at h
    injection h with ht hm
    rw [ht.symm, pnl_foldl_total rows h2 (0, [])]
    simp
  · intro r _ hs
    rw [spec_row_pnl, if_neg hs]
  · intro acc r hr hs
    have ha := (h2 r hr).1
    exact pnlStep_sentinel (by rw [ha]; exact hs)

theorem rat_floor_intCast (z : ℤ) : Rat.floor ((z : ℤ) : ℚ) = z := by
  have h : Rat.floor ((z : ℤ) : ℚ) = ⌊((z : ℤ) : ℚ)⌋ :=
    (Rat.floor_def' _).trans Rat.floor_def.symm
  rw [h, Int.floor_intCast]

theorem roundHalfEven_intCast (z : ℤ) : roundHalfEven ((z : ℤ) : ℚ) = z := by
  simp only [roundHalfEven, rat_floor_intCast]
  simp

theorem pyRound2_int (z : ℤ) : pyRound2 ((z : ℤ) : ℚ) = ((z : ℤ) : ℚ) := by
  unfold pyRound2
  have h1 : ((z : ℤ) : ℚ) * 100 = ((z * 100 : ℤ) : ℚ) := by push_cast; ring
  rw [h1, roundHalfEven_intCast]
  push_cast
  rw [mul_div_assoc]
  norm_num

theorem intCast_q_ne_neg_one {z : ℤ} (h : z ≠ -1) : ((z : ℤ) : ℚ) ≠ -1 := by
  intro hc
  exact h (by exact_mod_cast hc)

set_option linter.constructorNameAsVariable false in
/-- Witness for C3: a sold row (entry 120, last price 118, qty 50) whose
contribution is `(120 - 118) * 50`, and a sentinel row (`qty = -1`) that
leaves the fold accumulator untouched. -/
theorem C3_get_pnl_correct_witness :
    spec_row_pnl (⟨((120 : ℤ) : ℚ), 50, "S", "SYM", ((118 : ℤ) : ℚ)⟩ : PnlRow) =
      (((120 : ℤ) : ℚ) - ((118 : ℤ) : ℚ)) * 50 ∧
    pnlStep (0, []) (⟨((5 : ℤ) : ℚ), -1, "B", "X", ((5 : ℤ) : ℚ)⟩ : PnlRow) =
      (0, []) := by
  have h := C3_get_pnl_correct
    [(⟨((120 : ℤ) : ℚ), 50, "S", "SYM", ((118 : ℤ) : ℚ)⟩ : PnlRow),
     (⟨((5 : ℤ) : ℚ), -1, "B", "X", ((5 : ℤ) : ℚ)⟩ : PnlRow)]
    (by
      intro r hr
      simp only [List.mem_cons, List.not_mem_nil, or_false] at hr
      rcases hr with rfl | rfl
      · exact ⟨pyRound2_int 120, pyRound2_int 118⟩
      · exact ⟨pyRound2_int 5, pyRound2_int 5⟩)
  refine ⟨?_, ?_⟩
  · have h2 := h.2.1 (⟨((120 : ℤ) : ℚ), 50, "S", "SYM", ((118 : ℤ) : ℚ)⟩ : PnlRow)
      (List.mem_cons_self _ _)
      (fun hcon => hcon.elim
        (fun hx => intCast_q_ne_neg_one (by decide) hx)
        (fun hx => by cases hx))
    exact h2
  · exact h.2.2 (0, [])
      (⟨((5 : ℤ) : ℚ), -1, "B", "X", ((5 : ℤ) : ℚ)⟩ : PnlRow)
      (List.mem_cons_of_mem _ (List.mem_cons_self _ _))
      (Or.inr rfl)

/-! ### Claim C4 -/

theorem mem_square_off_calls {o : TxnRow} {l : List TxnRow} (ho : o ∈ l)
    {c : GatewayCall} (hc : c ∈ square_off_row_calls o) :
    c ∈ l.foldr (fun r acc => square_off_row_calls r ++ acc) [] := by
  induction l with
  | nil => cases ho
  | cons hd tl ih =>
    rcases List.mem_cons.1 ho with rfl | ho2
    · exact List.mem_append.2 (Or.inl hc)
    · exact List.mem_append.2 (Or.inr (ih ho2))

set_option linter.constructorNameAsVariable false in
/-- C4: Square-off completeness.  After `_square_off`, the `order_queue` is
empty; every Complete Ledger row of the instance produced an opposite-side
(`B` for `S`, `S` for `B`) market order tagged `<tag>_square_off` with the
row's symbol and quantity; every Open/TriggerPending/Pending row produced a
`cancel_order` with the row's order id; rows in any other status produce no
gateway call. -/
theorem C4_square_off_complete (ledger : List TxnRow) (inst : String)
    (q : Finset String) :
    (square_off ledger inst q).1 = ∅ ∧
    (∀ o ∈ get_orders ledger inst,
      (o.status = OrderStatus.COMPLETE → o.buysell = "S" →
        GatewayCall.placeOrder "B" o.tradingsymbol o.qty (o.remarks ++ "_square_off")
          ∈ (square_off ledger inst q).2) ∧
      (o.status = OrderStatus.COMPLETE → o.buysell = "B" →
        GatewayCall.placeOrder "S" o.tradingsymbol o.qty (o.remarks ++ "_square_off")
          ∈ (square_off ledger inst q).2) ∧
      ((o.status = OrderStatus.OPEN ∨ o.status = OrderStatus.TRIGGER_PENDING ∨
          o.status = OrderStatus.PENDING) →
        GatewayCall.cancelOrder o.norenordno ∈ (square_off ledger inst q).2) ∧
      ((o.status = OrderStatus.CANCELED ∨ o.status = OrderStatus.REJECTED ∨
          o.status = OrderStatus.INVALID_STATUS_TYPE) →
        square_off_row_calls o = [])) := by
  refine ⟨rfl, ?_⟩
  intro o ho
  refine ⟨?_, ?_, ?_, ?_⟩
  · intro hst hbs
    refine mem_square_off_calls ho ?_
    simp [square_off_row_calls, hst, hbs]
  · intro hst hbs
    refine mem_square_off_calls ho ?_
    simp [square_off_row_calls, hst, hbs]
  · intro hst
    refine mem_square_off_calls ho ?_
    rcases hst with h | h | h <;> simp [square_off_row_calls, h]
  · intro hst
    rcases hst with h | h | h <;> simp [square_off_row_calls, h]

set_option linter.constructorNameAsVariable false in
/-- Witness for C4: a ledger with one Complete sold row, one TriggerPending
row and one Rejected row. -/
theorem C4_square_off_complete_witness :
    (square_off
      [⟨"o1", "i|ce", 1, 50, "S", "SYM1", OrderStatus.COMPLETE, "i"⟩,
       ⟨"o2", "i|sl", 1, 50, "B", "SYM2", OrderStatus.TRIGGER_PENDING, "i"⟩,
       ⟨"o3", "i|bp", 1, 50, "B", "SYM3", OrderStatus.REJECTED, "i"⟩]
      "i" {"i|ce"}).1 = ∅ ∧
    GatewayCall.placeOrder "B" "SYM1" 50 "i|ce_square_off" ∈
      (square_off
        [⟨"o1", "i|ce", 1, 50, "S", "SYM1", OrderStatus.COMPLETE, "i"⟩,
         ⟨"o2", "i|sl", 1, 50, "B", "SYM2", OrderStatus.TRIGGER_PENDING, "i"⟩,
         ⟨"o3", "i|bp", 1, 50, "B", "SYM3", OrderStatus.REJECTED, "i"⟩]
        "i" {"i|ce"}).2 ∧
    GatewayCall.cancelOrder "o2" ∈
      (square_off
        [⟨"o1", "i|ce", 1, 50, "S", "SYM1", OrderStatus.COMPLETE, "i"⟩,
         ⟨"o2", "i|sl", 1, 50, "B", "SYM2", OrderStatus.TRIGGER_PENDING, "i"⟩,
         ⟨"o3", "i|bp", 1, 50, "B", "SYM3", OrderStatus.REJECTED, "i"⟩]
        "i" {"i|ce"}).2 ∧
    square_off_row_calls
      ⟨"o3", "i|bp", 1, 50, "B", "SYM3", OrderStatus.REJECTED, "i"⟩ = [] := by
  have h := C4_square_off_complete
    [⟨"o1", "i|ce", 1, 50, "S", "SYM1", OrderStatus.COMPLETE, "i"⟩,
     ⟨"o2", "i|sl", 1, 50, "B", "SYM2", OrderStatus.TRIGGER_PENDING, "i"⟩,
     ⟨"o3", "i|bp", 1, 50, "B", "SYM3", OrderStatus.REJECTED, "i"⟩]
    "i" {"i|ce"}
  refine ⟨h.1, ?_, ?_, ?_⟩
  · exact (h.2 ⟨"o1", "i|ce", 1, 50, "S", "SYM1", OrderStatus.COMPLETE, "i"⟩
      (by decide)).1 rfl rfl
  · exact (h.2 ⟨"o2", "i|sl", 1, 50, "B", "SYM2", OrderStatus.TRIGGER_PENDING, "i"⟩
      (by decide)).2.2.1 (Or.inr (Or.inl rfl))
  · exact (h.2 ⟨"o3", "i|bp", 1, 50, "B", "SYM3", OrderStatus.REJECTED, "i"⟩
      (by decide)).2.2.2 (Or.inr (Or.inl rfl))

/-! ### Claim C5 -/

/-- C5: the crossing branch of `cancel_on_profit` is broken in the code.  At a
concrete non-throttled input whose PnL (150) exceeds the target (100), the
logging call raises `NameError` for the undefined name `traget_loss` before
`_square_off()` is reached; moreover no input at all can make the
(non-throttled) call reach `_square_off` (`Except.ok true` is unreachable):
every run either raises or returns having done nothing. -/
theorem C5_cancel_on_profit_namerror :
    cancel_on_profit false (PnlValue.pair 150 []) 100 (-100) =
      Except.error "NameError: name traget_loss is not defined" ∧
    (∀ (r : PnlValue) (tp tl : ℚ),
      (∃ e, cancel_on_profit false r tp tl = Except.error e) ∨
      cancel_on_profit false r tp tl = Except.ok false) := by
  constructor
  · rfl
  · intro r tp tl
    cases r with
    | sentinel x => exact Or.inl ⟨_, rfl⟩
    | pair t m =>
      by_cases h : t > tp ∨ t ≤ tl
      · exact Or.inl ⟨"NameError: name traget_loss is not defined",
          by simp [cancel_on_profit, h]⟩
      · exact Or.inr (by simp [cancel_on_profit, h])

/-! ### Claim C6 -/

/-- C6 counterexample: at 16:00 IST — strictly after the 15:31 cutoff —
`day_over` returns `false`, and `over` with a nonempty remaining-work set and
no rejections returns `false`, contradicting the claim that `over()` is true
for all times after the cutoff (in particular for `hour >= 16`). -/
theorem C6_day_over_counterexample :
    day_over 16 0 = false ∧
    over [] "i1" {"i1|ce_straddle"} 16 0 false = false := by
  constructor
  · decide
  · decide

/-- C6 (amended): `day_over` is true exactly when the IST wall clock reads
hour 15 and minute ≥ 31; within that window (15:31–15:59) `over()` is true
regardless of the remaining-work set, but from 16:00 onward `day_over` is
`false` again, so `over()` is not forced. -/
theorem C6_day_over_amended :
    (∀ hr mi : ℕ, day_over hr mi = true ↔ (hr = 15 ∧ 31 ≤ mi)) ∧
    (∀ (ledger : List TxnRow) (inst : String) (q : Finset String) (mi : ℕ)
      (thr : Bool), 31 ≤ mi → over ledger inst q 15 mi thr = true) := by
  constructor
  · intro hr mi
    simp [day_over]
  · intro ledger inst q mi thr hmi
    simp [over, day_over, hmi]

/-- Witness for the amended C6 at 15:40 with a nonempty queue. -/
theorem C6_day_over_amended_witness :
    over [] "i1" {"i1|ce_straddle"} 15 40 false = true :=
  C6_day_over_amended.2 [] "i1" {"i1|ce_straddle"} 40 false (by decide)

/-! ### Claim C7 -/

set_option linter.constructorNameAsVariable false in
/-- C7: Fail-fast rejection.  When the Ledger holds REJECTED rows for both
legs' primary tags, a non-throttled `over()` returns true; when at least one
leg's primary is not in REJECTED state, `_both_legs_rejected` returns false. -/
theorem C7_both_legs_rejected (ledger : List TxnRow) (inst : String)
    (q : Finset String) (hour minute : ℕ) :
    (pyTruthy (get_for_remarks ledger inst (get_remarks inst "ce_straddle")
        (some OrderStatus.REJECTED)).1 = true →
      pyTruthy (get_for_remarks ledger inst (get_remarks inst "pe_straddle")
        (some OrderStatus.REJECTED)).1 = true →
      over ledger inst q hour minute false = true) ∧
    (pyTruthy (get_for_remarks ledger inst (get_remarks inst "ce_straddle")
        (some OrderStatus.REJECTED)).1 = false ∨
      pyTruthy (get_for_remarks ledger inst (get_remarks inst "pe_straddle")
        (some OrderStatus.REJECTED)).1 = false →
      both_legs_rejected ledger inst = false) := by
  constructor
  · intro h1 h2
    simp [over, both_legs_rejected, h1, h2]
  · intro h
    rcases h with h | h <;> simp [both_legs_rejected, h]

set_option linter.constructorNameAsVariable false in
/-- Witness for C7: both primaries REJECTED in a two-row ledger closes the
instance even at 10:00 with work remaining. -/
theorem C7_both_legs_rejected_witness :
    over [⟨"o1", "i1|ce_straddle", 1, 50, "S", "A", OrderStatus.REJECTED, "i1"⟩,
          ⟨"o2", "i1|pe_straddle", 1, 50, "S", "B", OrderStatus.REJECTED, "i1"⟩]
      "i1" {"i1|ce_straddle_stop_loss"} 10 0 false = true :=
  (C7_both_legs_rejected
    [⟨"o1", "i1|ce_straddle", 1, 50, "S", "A", OrderStatus.REJECTED, "i1"⟩,
     ⟨"o2", "i1|pe_straddle", 1, 50, "S", "B", OrderStatus.REJECTED, "i1"⟩]
    "i1" {"i1|ce_straddle_stop_loss"} 10 0).1 (by decide) (by decide)

/-! ### Claim C8 -/

theorem countRowsFor_map_replace (tbl : List TxnRow) (row : TxnRow) :
    countRowsFor (tbl.map (fun r => if r.norenordno == row.norenordno then row else r))
      row.norenordno = countRowsFor tbl row.norenordno := by
  unfold countRowsFor
  rw [← List.countP_eq_length_filter, ← List.countP_eq_length_filter, List.countP_map]
  apply List.countP_congr
  intro a _
  by_cases hh : (a.norenordno == row.norenordno) = true
  · rw [Function.comp_apply, if_pos hh, hh, beq_self_eq_true]
  · rw [Function.comp_apply, if_neg hh]

theorem countRowsFor_pos_of_any {tbl : List TxnRow} {row : TxnRow}
    (hany : tbl.any (fun r => r.norenordno == row.norenordno) = true) :
    1 ≤ countRowsFor tbl row.norenordno := by
  rw [List.any_eq_true] at hany
  obtain ⟨r, hr, hkey⟩ := hany
  have hm : r ∈ tbl.filter (fun r => r.norenordno == row.norenordno) :=
    List.mem_filter.2 ⟨hr, hkey⟩
  exact Nat.succ_le_of_lt (List.length_pos.2 (List.ne_nil_of_mem hm))

theorem countRowsFor_upsert (tbl : List TxnRow) (row : TxnRow)
    (h : countRowsFor tbl row.norenordno ≤ 1) :
    countRowsFor (upsert_transaction tbl row) row.norenordno = 1 := by
  unfold upsert_transaction
  split
  · next hany =>
    rw [countRowsFor_map_replace]
    have h1 := countRowsFor_pos_of_any hany
    omega
  · next hany =>
    have hnil : tbl.filter (fun r => r.norenordno == row.norenordno) = [] := by
      rw [List.filter_eq_nil_iff]
      intro r hr
      intro hkey
      exact absurd (List.any_eq_true.2 ⟨r, hr, hkey⟩) hany
    simp [countRowsFor, List.filter_append, hnil]

theorem upsert_any (tbl : List TxnRow) (row : TxnRow) :
    (upsert_transaction tbl row).any (fun r => r.norenordno == row.norenordno)
      = true := by
  unfold upsert_transaction
  split
  · next hany =>
    rw [List.any_eq_true] at hany ⊢
    obtain ⟨r, hr, hkey⟩ := hany
    exact ⟨row, List.mem_map.2 ⟨r, hr, by rw [if_pos hkey]⟩, by simp⟩
  · rw [List.any_eq_true]
    exact ⟨row, List.mem_append.2 (Or.inr (List.mem_cons_self _ _)), by simp⟩

theorem upsert_len_of_any {tbl : List TxnRow} {row : TxnRow}
    (hany : tbl.any (fun r => r.norenordno == row.norenordno) = true) :
    (upsert_transaction tbl row).length = tbl.length := by
  unfold upsert_transaction
  rw [if_pos hany]
  exact List.length_map _ _

theorem ee_handle_shape (reg : Finset String) (ex : List String)
    (ev : OrderUpdateEvent) :
    ee_handle_order_update reg ex ev = (reg, false) ∨
    (ee_handle_order_update reg ex ev).1 = reg.erase ev.remarks := by
  unfold ee_handle_order_update
  split
  · split
    · split
      · exact Or.inr rfl
      · exact Or.inr rfl
    · exact Or.inl rfl
  · exact Or.inl rfl

theorem ee_handle_not_mem {reg : Finset String} {ex : List String}
    {ev : OrderUpdateEvent} (h : ev.remarks ∉ reg) :
    ee_handle_order_update reg ex ev = (reg, false) := by
  unfold ee_handle_order_update
  split
  · split
    · next hc => exact absurd hc.1 h
    · rfl
  · rfl

theorem ee_replay_no_refire (reg : Finset String) (ex : List String)
    (ev : OrderUpdateEvent) :
    (ee_handle_order_update (ee_handle_order_update reg ex ev).1 ex ev).2
      = false := by
  rcases ee_handle_shape reg ex ev with he | he
  · rw [he]
    show (ee_handle_order_update reg ex ev).2 = false
    rw [he]
  · rw [he, ee_handle_not_mem (Finset.not_mem_erase _ _)]

theorem ee_handle_cancelled {reg : Finset String} {ex : List String}
    {ev : OrderUpdateEvent} (hs : ev.status = "CANCELLED")
    (hr : ev.reporttype = "Canceled") (hmem : ev.remarks ∈ reg)
    (hex : ev.norenordno ∈ ex) :
    ee_handle_order_update reg ex ev = (reg.erase ev.remarks, false) := by
  unfold ee_handle_order_update
  rw [if_pos, if_pos ⟨hmem, hex⟩, if_pos]
  · rw [hs]
    rfl
  · rw [hs, hr]
    rfl

set_option linter.constructorNameAsVariable false in
/-- C8: Dedup.  (1) Delivering the same order-update twice upserts onto the
same primary key: exactly one `transactions` row holds that order id
afterwards, and the second delivery adds no row at all; (2) a reaction
consumed by a matching Complete/Fill delivery is removed from the registry,
so replaying the same event does not invoke it again (for any event, the
second delivery never fires); (3) a Cancelled delivery removes the reaction
without invoking it. -/
theorem C8_dedup (tbl : List TxnRow) (row : TxnRow)
    (hpk : countRowsFor tbl row.norenordno ≤ 1)
    (reg : Finset String) (ex : List String) (ev : OrderUpdateEvent)
    (hs : ev.status = "CANCELLED") (hr : ev.reporttype = "Canceled")
    (hmem : ev.remarks ∈ reg) (hex : ev.norenordno ∈ ex) :
    countRowsFor (upsert_transaction (upsert_transaction tbl row) row)
      row.norenordno = 1 ∧
    (upsert_transaction (upsert_transaction tbl row) row).length =
      (upsert_transaction tbl row).length ∧
    (∀ (reg2 : Finset String) (ev2 : OrderUpdateEvent),
      (ee_handle_order_update (ee_handle_order_update reg2 ex ev2).1 ex ev2).2
        = false) ∧
    ee_handle_order_update reg ex ev = (reg.erase ev.remarks, false) ∧
    ev.remarks ∉ (ee_handle_order_update reg ex ev).1 :=
  ⟨countRowsFor_upsert _ _ (le_of_eq (countRowsFor_upsert tbl row hpk)),
   upsert_len_of_any (upsert_any tbl row),
   fun reg2 ev2 => ee_replay_no_refire reg2 ex ev2,
   ee_handle_cancelled hs hr hmem hex,
   by
    rw [ee_handle_cancelled hs hr hmem hex]
    exact Finset.not_mem_erase _ _⟩

set_option linter.constructorNameAsVariable false in
/-- Witness for C8 at a concrete table, registry and Cancelled event. -/
theorem C8_dedup_witness :
    countRowsFor
      (upsert_transaction
        (upsert_transaction
          [⟨"o9", "i|x", 1, 1, "B", "S1", OrderStatus.OPEN, "i"⟩]
          ⟨"o1", "i|t", 2, 5, "S", "S2", OrderStatus.COMPLETE, "i"⟩)
        ⟨"o1", "i|t", 2, 5, "S", "S2", OrderStatus.COMPLETE, "i"⟩) "o1" = 1 ∧
    ee_handle_order_update ({"i|t"} : Finset String) ["o1"]
      ⟨"CANCELLED", "Canceled", "i|t", "o1"⟩ =
      (({"i|t"} : Finset String).erase "i|t", false) := by
  have h := C8_dedup
    [⟨"o9", "i|x", 1, 1, "B", "S1", OrderStatus.OPEN, "i"⟩]
    ⟨"o1", "i|t", 2, 5, "S", "S2", OrderStatus.COMPLETE, "i"⟩
    (by decide)
    ({"i|t"} : Finset String) ["o1"]
    ⟨"CANCELLED", "Canceled", "i|t", "o1"⟩
    rfl rfl (by decide) (by decide)
  exact ⟨h.1, h.2.2.2.1⟩

/-! ### Claim C9 -/

/-- C9 counterexample: `re_enqueue_rejected_order` is an orchestrator
operation that grows `order_queue`.  Starting from an empty queue with one
REJECTED `_book_profit` row in the Ledger, the resulting queue is not a
subset of the starting queue. -/
theorem C9_requeue_counterexample :
    ¬ (re_enqueue_rejected_order
        [⟨"o1", "i|ce_straddle_book_profit", 1, 50, "B", "SYM",
          OrderStatus.REJECTED, "i"⟩] "i" ∅ ⊆ ∅) := by
  decide

/-- C9 (amended): every orchestrator step operation except
`re_enqueue_rejected_order` — place, subscribe, unsubscribe,
cancel-on-book-profit and square-off — only shrinks `order_queue`
(the result is a subset of the input); `re_enqueue_rejected_order` alone can
add tags back (REJECTED `_book_profit` tags), and its call in the main loop
is commented out. -/
theorem C9_queue_shrinks_amended :
    ∀ (ledger : List TxnRow) (inst : String) (q : Finset String)
      (r p cr : String) (po eo : Option String) (ps : OrderStatus),
      (place_order ledger inst q r po ps eo).1 ⊆ q ∧
      (subscribe ledger inst q r p ps).1 ⊆ q ∧
      (unsubscribe ledger inst q r p).1 ⊆ q ∧
      (cancel_on_book_profit ledger inst q r p ps cr).1 ⊆ q ∧
      (square_off ledger inst q).1 ⊆ q := by
  intro ledger inst q r p cr po eo ps
  refine ⟨?_, ?_, ?_, ?_, ?_⟩
  · rcases place_order_spec ledger inst q r po ps eo with he | ⟨_, hsub⟩
    · rw [he]
    · exact hsub.trans (Finset.erase_subset _ _)
  · unfold subscribe
    split
    · exact Finset.Subset.refl _
    · split
      · exact Finset.erase_subset _ _
      · exact Finset.Subset.refl _
  · rcases unsubscribe_cases ledger inst q r p with he | he
    · rw [he]
    · rw [he]
      exact Finset.erase_subset _ _
  · simp only [cancel_on_book_profit]
    split
    · exact Finset.Subset.refl _
    · split
      · split
        · split
          · exact Finset.erase_subset _ _
          · split
            · exact Finset.erase_subset _ _
            · exact Finset.Subset.refl _
        · exact Finset.Subset.refl _
      · exact Finset.Subset.refl _
  · exact Finset.empty_subset _

/-! ### Claim C10 -/

/-- C10: on the exception path `get_pnl` returns the bare float sentinel
`-999.999` instead of a `(total, breakdown)` pair, so a caller that unpacks
two values — `cancel_on_profit` — raises `TypeError` on that path; on the
success path the result is always a pair. -/
theorem C10_get_pnl_sentinel_shape :
    (∀ rows : List PnlRow, get_pnl false rows =
      PnlValue.sentinel (-(999999 : ℚ) / 1000)) ∧
    (∀ (rows : List PnlRow) (tp tl : ℚ), ∃ e,
      cancel_on_profit false (get_pnl false rows) tp tl = Except.error e) ∧
    (∀ rows : List PnlRow, ∃ t msg, get_pnl true rows = PnlValue.pair t msg) :=
  ⟨fun _ => rfl, fun _ _ _ => ⟨_, rfl⟩, fun _ => ⟨_, _, rfl⟩⟩

end Shoonya
